import Mathlib

/-!
Shallow embedding of the Nordic Secure DFU client engine of rcaelers/nrf-dfu,
file src/dfu/dfu.go.

Modelling conventions:
* Go byte slices are `List Nat` (each element is a byte value; the wire codecs
  mask with `% 256` where Go's types guarantee byte range).
* A Go `error` value is `Option Err`; `none` is Go's `nil`.  `wrapE` models
  `github.com/pkg/errors.Wrap`/`Wrapf`, which return `nil` when asked to wrap
  a `nil` error — this detail is load-bearing for the engine's behavior.
* Go runtime panics (slice index out of range, nil dereference) are the
  `Res.panic` constructor; machine integers are `Nat` with explicit `% 2^32`
  at the places Go converts to `uint32`.
* The BLE transport is abstracted exactly as the engine consumes it: each
  control-point request is answered by a raw frame delivered on the response
  channel; a `Device` supplies the frame for each request, and characteristic
  writes are assumed to succeed at the transport level (the claims under
  study concern protocol logic, not transport write failures, whose `err`
  short-circuits are nevertheless modelled in each send helper).
* The unbounded `for` loop of `transfer` is run on explicit fuel
  (`TResult.fuelOut` means the fuel was exhausted, i.e. the loop is still
  running); zip decompression (`file.Open`/`ioutil.ReadAll`) is outside the
  engine and `transfer` is modelled on the decompressed payload bytes.
-/

set_option maxRecDepth 40000

namespace NrfDfu

/-- Go error values as built by github.com/pkg/errors: a base error or a
wrapped error carrying an annotation message. -/
inductive Err where
  | base : String → Err
  | wrap : String → Err → Err
deriving DecidableEq

/-- pkg/errors `Wrap`/`Wrapf` (v0.8.0): annotating a non-nil error wraps it;
wrapping a nil error returns nil.  The engine calls this on the path where
the wrapped error is nil and only the message reports the failure. -/
def wrapE : Option Err → String → Option Err
  | none, _ => none
  | some e, msg => some (Err.wrap msg e)

/-- Result of running Go code that can hit a runtime panic (index out of
range, nil dereference): either a panic or a normal value. -/
inductive Res (α : Type) where
  | panic : Res α
  | ok : α → Res α
deriving DecidableEq

/-- DFU control-point opcodes (src/dfu/dfu.go lines 72-87). -/
def DFU_OP_OBJECT_CREATE : Nat := 0x01

def DFU_OP_CRC_GET : Nat := 0x03

def DFU_OP_OBJECT_EXECUTE : Nat := 0x04

def DFU_OP_OBJECT_SELECT : Nat := 0x06

def DFU_OP_RESPONSE : Nat := 0x60

/-- DFU result code SUCCESS (line 93). -/
def DFU_RESULT_SUCCESS : Nat := 0x01

/-- One bit round of the reflected CRC-32 with polynomial 0xEDB88320, exactly
as Go's hash/crc32 computes entries of the IEEE table. -/
def crc32Round (c : Nat) : Nat :=
  if c % 2 = 1 then (c / 2) ^^^ 0xEDB88320 else c / 2

/-- Feed one byte into the running CRC: xor it into the low bits, then run
8 bit rounds (hash/crc32 simpleUpdate semantics for the IEEE polynomial). -/
def crc32Update (c b : Nat) : Nat :=
  crc32Round (crc32Round (crc32Round (crc32Round
    (crc32Round (crc32Round (crc32Round (crc32Round (c ^^^ (b % 256)))))))))

/-- Go `crc32.ChecksumIEEE`: CRC-32/IEEE 802.3 — reflected polynomial
0xEDB88320, initial value 0xFFFFFFFF, final xor 0xFFFFFFFF. -/
def crc32 (data : List Nat) : Nat :=
  (data.foldl crc32Update 0xFFFFFFFF) ^^^ 0xFFFFFFFF

/-- Model of `sendControl` (lines 130-154).  Writes `opcode :: request` to the control
characteristic (outcome `writeErr`), then receives `frame` from the response
channel and reads its bytes 0, 1, 2 without a length check — a frame shorter
than 3 bytes is an index-out-of-range panic.  Each frame-validation branch
returns `errors.Wrap(err, …)` where `err` is nil at that point, so the
returned error is nil.  On success it returns the frame after byte 3. -/
def sendControl (writeErr : Option Err) (frame : List Nat) (opcode : Nat)
    (request : List Nat) : Res (Option (List Nat) × Option Err) :=
  if writeErr.isSome then
    Res.ok (none, wrapE writeErr ("failed to write to control characteristic"))
  else
    match frame with
    | b0 :: b1 :: b2 :: rest =>
      if b0 ≠ DFU_OP_RESPONSE then
        Res.ok (none, wrapE none ("Received incorrect response code"))
      else if b1 ≠ opcode then
        Res.ok (none, wrapE none ("Received response for incorrect operation"))
      else if b2 ≠ DFU_RESULT_SUCCESS then
        Res.ok (none, wrapE none ("DFU control operation failed"))
      else
        Res.ok (some rest, none)
    | _ => Res.panic

/-- Model of `sendBoot` (lines 156-178).  Writes `request` to the buttonless
characteristic, receives `frame`, reads frame bytes 0, 1, 2 (panic when the
frame is shorter than 3), compares byte 0 against 0x20, byte 1 against
`request[0]` (panic when `request` is empty), byte 2 against SUCCESS; every
validation branch wraps a nil error and therefore returns nil. -/
def sendBoot (writeErr : Option Err) (frame : List Nat)
    (request : List Nat) : Res (Option Err) :=
  if writeErr.isSome then
    Res.ok (wrapE writeErr ("failed to set advertisment name"))
  else
    match frame with
    | b0 :: b1 :: b2 :: _ =>
      if b0 ≠ 0x20 then
        Res.ok (wrapE none ("Received incorrect response code"))
      else
        match request with
        | r0 :: _ =>
          if b1 ≠ r0 then
            Res.ok (wrapE none ("Received response for incorrect operation"))
          else if b2 ≠ DFU_RESULT_SUCCESS then
            Res.ok (wrapE none ("DFU control operation failed"))
          else
            Res.ok none
        | [] => Res.panic
    | _ => Res.panic

/-- Little-endian 32-bit value of four bytes (binary.LittleEndian). -/
def leU32 (a b c d : Nat) : Nat :=
  a % 256 + 256 * (b % 256) + 65536 * (c % 256) + 16777216 * (d % 256)

/-- binary.LittleEndian.PutUint32: the four little-endian bytes of `n`. -/
def putU32le (n : Nat) : List Nat :=
  [n % 256, n / 256 % 256, n / 65536 % 256, n / 16777216 % 256]

/-- SELECT response body (line 111): max_size, offset, crc, all uint32. -/
structure SelectResponse where
  MaxSize : Nat
  Offset : Nat
  Crc32 : Nat
deriving DecidableEq

/-- CRC_GET response body (line 117): offset and crc, both uint32. -/
structure ChecksumResponse where
  Offset : Nat
  Crc32 : Nat
deriving DecidableEq

/-- binary.Read of a 12-byte little-endian `SelectResponse`; fails (returns
none) when fewer than 12 bytes are available, extra bytes are ignored. -/
def parseSelect : List Nat → Option SelectResponse
  | m0 :: m1 :: m2 :: m3 :: o0 :: o1 :: o2 :: o3 :: c0 :: c1 :: c2 :: c3 :: _ =>
    some ⟨leU32 m0 m1 m2 m3, leU32 o0 o1 o2 o3, leU32 c0 c1 c2 c3⟩
  | _ => none

/-- binary.Read of an 8-byte little-endian `ChecksumResponse`. -/
def parseChecksum : List Nat → Option ChecksumResponse
  | o0 :: o1 :: o2 :: o3 :: c0 :: c1 :: c2 :: c3 :: _ =>
    some ⟨leU32 o0 o1 o2 o3, leU32 c0 c1 c2 c3⟩
  | _ => none

/-- Model of `sendSelect` (lines 235-249): OBJECT_SELECT with the type byte, then
unpack the 12-byte response.  On a `sendControl` frame-validation failure the
returned error is nil and the response slice is nil, so the subsequent
binary.Read fails with a real (non-nil) unpack error. -/
def sendSelect (writeErr : Option Err) (frame : List Nat) (selectCode : Nat) :
    Res (SelectResponse × Option Err) :=
  match sendControl writeErr frame DFU_OP_OBJECT_SELECT [selectCode] with
  | Res.panic => Res.panic
  | Res.ok (response, err) =>
    if err.isSome then
      Res.ok (⟨0, 0, 0⟩, wrapE err ("failed to send select command"))
    else
      match parseSelect (response.getD []) with
      | some s => Res.ok (s, none)
      | none =>
        Res.ok (⟨0, 0, 0⟩,
          some (Err.wrap ("failed to unpack select response data")
            (Err.base ("binary read"))))

/-- Model of `sendCreateObject` (lines 251-262): OBJECT_CREATE with the type byte and
the 32-bit little-endian length.  Returns `errors.Wrap` of `sendControl`'s
error — which is nil even when the response frame was invalid. -/
def sendCreateObject (writeErr : Option Err) (frame : List Nat)
    (controlType length : Nat) : Res (Option Err) :=
  match sendControl writeErr frame DFU_OP_OBJECT_CREATE
      (controlType :: putU32le length) with
  | Res.panic => Res.panic
  | Res.ok (_, err) => Res.ok (wrapE err ("failed to send create object command"))

/-- Model of `sendCrcGet` (lines 264-278): CRC_GET with empty payload, unpack the
8-byte response. -/
def sendCrcGet (writeErr : Option Err) (frame : List Nat) :
    Res (ChecksumResponse × Option Err) :=
  match sendControl writeErr frame DFU_OP_CRC_GET [] with
  | Res.panic => Res.panic
  | Res.ok (response, err) =>
    if err.isSome then
      Res.ok (⟨0, 0⟩, wrapE err ("failed to send crc get command"))
    else
      match parseChecksum (response.getD []) with
      | some c => Res.ok (c, none)
      | none =>
        Res.ok (⟨0, 0⟩,
          some (Err.wrap ("failed to unpack crc get response data")
            (Err.base ("binary read"))))

/-- Model of `sendExecute` (lines 290-296): OBJECT_EXECUTE with empty payload. -/
def sendExecute (writeErr : Option Err) (frame : List Nat) : Res (Option Err) :=
  match sendControl writeErr frame DFU_OP_OBJECT_EXECUTE [] with
  | Res.panic => Res.panic
  | Res.ok (_, err) => Res.ok (wrapE err ("failed to send execute command"))

/-- Model of `sendData` (lines 211-233): stream `data` to the Packet characteristic in
fragments of at most 20 bytes (write-no-response), calling
`updateProgress(end - i)` after each successful fragment write.  Returns the
fragments written, the progress increments reported, and the error.
`writeErr idx` is the transport outcome of the `idx`-th fragment write; on a
write error the loop stops with a wrapped (non-nil) error.  The per-fragment
10 ms sleep is timing and is not modelled. -/
def sendDataGo (writeErr : Nat → Option Err) :
    Nat → List Nat → Nat → List (List Nat) × List Nat × Option Err
  | _, [], _ => ([], [], none)
  | 0, _ :: _, _ => ([], [], none)
  | n + 1, d :: ds, idx =>
    match writeErr idx with
    | some e =>
      ([], [], some (Err.wrap ("failed to write to packet characteristic") e))
    | none =>
      let frag := (d :: ds).take 20
      let rest := sendDataGo writeErr n ((d :: ds).drop 20) (idx + 1)
      (frag :: rest.1, frag.length :: rest.2.1, rest.2.2)

/-- The `sendData` loop, with the fragment budget set to the payload length
(always sufficient, since every fragment consumes at least one byte). -/
def sendData (writeErr : Nat → Option Err) (data : List Nat) (idx : Nat) :
    List (List Nat) × List Nat × Option Err :=
  sendDataGo writeErr data.length data idx

/-- The checksum `verifyCrc` compares the device's CRC against (line 333):
`crc32.ChecksumIEEE(data[0:end])` — the cumulative payload prefix up to the
chunk end, not the chunk's own bytes. -/
def verifyCrcChecksum (data : List Nat) (e : Nat) : Nat :=
  crc32 (data.take e)

/-- Model of `verifyCrc` (lines 327-342): issue CRC_GET, then check the reported
offset against `uint32(end)` and the reported CRC against the cumulative
prefix checksum.  Both mismatch branches return `errors.Wrapf(err, …)` with
`err` nil at that point — i.e. they return nil.  Slicing `data[0:end]` with
`end > len(data)` is a runtime panic. -/
def verifyCrc (writeErr : Option Err) (frame : List Nat) (data : List Nat)
    (e : Nat) : Res (Option Err) :=
  match sendCrcGet writeErr frame with
  | Res.panic => Res.panic
  | Res.ok (checksumResponse, err) =>
    if err.isSome then
      Res.ok (wrapE err ("failed to compute checksum"))
    else if data.length < e then
      Res.panic
    else
      let checksum := verifyCrcChecksum data e
      if checksumResponse.Offset ≠ e % 2 ^ 32 then
        Res.ok (wrapE none ("Size mismatch"))
      else if checksumResponse.Crc32 ≠ checksum then
        Res.ok (wrapE none ("CRC mismatch"))
      else
        Res.ok none

/-- Observable protocol actions of a transfer, in order: the OBJECT_SELECT
request, OBJECT_CREATE requests, Packet-characteristic fragment writes,
CRC_GET requests and OBJECT_EXECUTE requests. -/
inductive Op where
  | select : Nat → Op
  | create : Nat → Nat → Op
  | packetWrite : List Nat → Op
  | crcGet : Op
  | execute : Op
deriving DecidableEq

/-- The device side of a transfer: the response frame delivered for the
SELECT request, and for the k-th CREATE / CRC_GET / EXECUTE request of the
chunk loop; `packetErr k idx` is the transport outcome of the idx-th fragment
write of chunk k. -/
structure Device where
  selectFrame : List Nat
  createFrame : Nat → List Nat
  crcFrame : Nat → List Nat
  executeFrame : Nat → List Nat
  packetErr : Nat → Nat → Option Err

/-- Result of the fueled transfer loop: `fuelOut` means the fuel budget was
exhausted with the loop still running (the Go loop has no bound of its own). -/
inductive TResult (α : Type) where
  | fuelOut : TResult α
  | panic : TResult α
  | ok : α → TResult α
deriving DecidableEq

/-- One iteration of the chunk loop of `transfer` (lines 368-395), for the
chunk starting at byte `i`: CREATE the object, stream the chunk, verify the
CRC, EXECUTE.  `Sum.inl (trace, err)` is an early `return err` out of
`transfer`; `Sum.inr trace` means the iteration completed and the loop
continues at `i + maxChunkSize`. -/
def chunkStep (dev : Device) (objectType : Nat) (data : List Nat)
    (mcs i k : Nat) : Res ((List Op × Option Err) ⊕ List Op) :=
  let e := if i + mcs > data.length then data.length else i + mcs
  let chunkSize := e - i
  match sendCreateObject none (dev.createFrame k) objectType chunkSize with
  | Res.panic => Res.panic
  | Res.ok cErr =>
    if cErr.isSome then
      Res.ok (Sum.inl ([Op.create objectType chunkSize],
        wrapE cErr ("failed to create object")))
    else
      let sd := sendData (dev.packetErr k) ((data.drop i).take chunkSize) 0
      let tr1 := Op.create objectType chunkSize :: sd.1.map Op.packetWrite
      if sd.2.2.isSome then
        Res.ok (Sum.inl (tr1, wrapE sd.2.2 ("failed to write object")))
      else
        match verifyCrc none (dev.crcFrame k) data e with
        | Res.panic => Res.panic
        | Res.ok vErr =>
          if vErr.isSome then
            Res.ok (Sum.inl (tr1 ++ [Op.crcGet],
              wrapE vErr ("verification failed")))
          else
            match sendExecute none (dev.executeFrame k) with
            | Res.panic => Res.panic
            | Res.ok xErr =>
              if xErr.isSome then
                Res.ok (Sum.inl (tr1 ++ [Op.crcGet, Op.execute],
                  wrapE xErr ("failed to execute")))
              else
                Res.ok (Sum.inr (tr1 ++ [Op.crcGet, Op.execute]))

/-- The chunk loop `for i := 0; i < size; i += maxChunkSize` of `transfer`,
with explicit fuel standing for the number of iterations still allowed. -/
def transferLoop (dev : Device) (objectType : Nat) (data : List Nat)
    (mcs : Nat) : Nat → Nat → Nat → TResult (List Op × Option Err)
  | _, _, 0 => TResult.fuelOut
  | i, k, fuel + 1 =>
    if i < data.length then
      match chunkStep dev objectType data mcs i k with
      | Res.panic => TResult.panic
      | Res.ok (Sum.inl r) => TResult.ok r
      | Res.ok (Sum.inr tr3) =>
        match transferLoop dev objectType data mcs (i + mcs) (k + 1) fuel with
        | TResult.fuelOut => TResult.fuelOut
        | TResult.panic => TResult.panic
        | TResult.ok (tr, e) => TResult.ok (tr3 ++ tr, e)
    else
      TResult.ok ([], none)

/-- Model of `transfer` (lines 344-397), modelled on the decompressed payload bytes:
SELECT the object type (the `err` of `sendSelect` is assigned but never
checked), take `maxChunkSize` from the response, return immediately when the
device-reported offset equals `uint32(size)` and the reported CRC equals the
full-payload checksum (the naked `return` propagates `sendSelect`'s error
value), otherwise run the chunk loop. -/
def transfer (dev : Device) (objectType : Nat) (data : List Nat) (fuel : Nat) :
    TResult (List Op × Option Err) :=
  match sendSelect none dev.selectFrame objectType with
  | Res.panic => TResult.panic
  | Res.ok (selectReponse, selErr) =>
    if selectReponse.Offset = data.length % 2 ^ 32 ∧
        selectReponse.Crc32 = crc32 data then
      TResult.ok ([Op.select objectType], selErr)
    else
      match transferLoop dev objectType data selectReponse.MaxSize 0 0 fuel with
      | TResult.fuelOut => TResult.fuelOut
      | TResult.panic => TResult.panic
      | TResult.ok (tr, e) => TResult.ok (Op.select objectType :: tr, e)

/-- A member of the firmware zip archive: its name (as bytes), its recorded
uncompressed size (`UncompressedSize64`) and its decompressed contents. -/
structure ZMember where
  name : List Nat
  usize : Nat
  data : List Nat
deriving DecidableEq

/-- The byte suffix ".dat". -/
def datSuffix : List Nat := [46, 100, 97, 116]

/-- The byte suffix ".bin". -/
def binSuffix : List Nat := [46, 98, 105, 110]

/-- strings.HasSuffix on byte lists. -/
def hasSuffix (s suffix : List Nat) : Bool :=
  suffix.isSuffixOf s

/-- Body of the member loop of `readFirmwareArchive` (lines 313-323) for one
archive member: a `.dat` member overwrites `initDataFile` and adds its
uncompressed size to `maxProgressValue`; then a `.bin` member likewise for
`firmwareFile`.  The accumulator is `(initDataFile, firmwareFile,
maxProgressValue)`. -/
def archiveStep (acc : Option ZMember × Option ZMember × Nat) (f : ZMember) :
    Option ZMember × Option ZMember × Nat :=
  let acc1 := if hasSuffix f.name datSuffix
    then (some f, acc.2.1, acc.2.2 + f.usize) else acc
  if hasSuffix f.name binSuffix
    then (acc1.1, some f, acc1.2.2 + f.usize) else acc1

/-- The member loop of `readFirmwareArchive` over all archive members. -/
def archiveFold (ms : List ZMember) :
    Option ZMember × Option ZMember × Nat :=
  ms.foldl archiveStep (none, none, 0)

/-- Model of `readFirmwareArchive` (lines 305-325): `openErr` is the outcome of
`zip.OpenReader`; on failure the wrapped (non-nil) error is returned.  On
success the member loop runs and the function returns the nil `err` — there
is no check that a `.dat` or `.bin` member was found. -/
def readFirmwareArchive (openErr : Option Err) (ms : List ZMember) :
    (Option ZMember × Option ZMember × Nat) × Option Err :=
  match openErr with
  | some e => ((none, none, 0), some (Err.wrap ("Cannot open zip") e))
  | none => (archiveFold ms, none)

/-- Progress attributed to one protocol action: `updateProgress` is called
once per Packet fragment with increment `end - i`, the fragment length. -/
def opProgress : Op → Nat
  | Op.packetWrite f => f.length
  | _ => 0

/-- Total bytes of progress reported over a trace. -/
def progressOf (tr : List Op) : Nat :=
  (tr.map opProgress).sum

/-- Model of `updateProgress` (lines 298-303): adds the increment to the running
progress value (an int64) and reports it to the callback. -/
def updateProgress (progressValue increment : Int) : Int :=
  progressValue + increment

/-- The increments passed to `updateProgress` over a trace, in order. -/
def incrementsOf (tr : List Op) : List Int :=
  tr.filterMap (fun op =>
    match op with
    | Op.packetWrite f => some ((f.length : Int))
    | _ => none)

/-- The successive values of `progressValue`, starting from 0, over a trace's
`updateProgress` calls. -/
def progressStates (tr : List Op) : List Int :=
  (incrementsOf tr).scanl updateProgress 0

/-- One reconnect attempt inside `Update` (lines 537-552): the outcome of
`dfu.connect()` and whether the new connection carries the control and packet
characteristics. -/
structure ConnAttempt where
  connErr : Option Err
  hasControl : Bool
  hasPacket : Bool

/-- How the reconnect loop of `Update` is left. -/
inductive ReconnectOutcome where
  | failed : Err → ReconnectOutcome
  | connected : Nat → ReconnectOutcome
  | exhausted : ReconnectOutcome
deriving DecidableEq

/-- The reconnect loop of `Update` (lines 535-552), entered with `tries = 5`:
connect; a connect error returns it wrapped; a connection with both
characteristics breaks out successfully; otherwise decrement `tries`, break
out (without any error!) when it reaches 0, else sleep 1000 ms and retry.
Returns the outcome, the number of connect attempts made and the number of
1000 ms sleeps.  (`tries = 0` at entry would loop on a negative Go int; that
argument is never used, the loop is entered with 5.) -/
def reconnectLoop (att : Nat → ConnAttempt) : Nat → Nat → ReconnectOutcome × Nat × Nat
  | _, 0 => (ReconnectOutcome.exhausted, 0, 0)
  | k, tries + 1 =>
    let a := att k
    match a.connErr with
    | some e => (ReconnectOutcome.failed (Err.wrap ("failed to reconnect") e), 1, 0)
    | none =>
      if a.hasControl && a.hasPacket then (ReconnectOutcome.connected k, 1, 0)
      else if tries = 0 then (ReconnectOutcome.exhausted, 1, 0)
      else
        let r := reconnectLoop att (k + 1) tries
        (r.1, r.2.1 + 1, r.2.2 + 1)

/-- The reconnect phase of `Update` after `enterBootloader`: the loop is
entered with `tries = 5` and the first attempt index 0. -/
def updateReconnect (att : Nat → ConnAttempt) : ReconnectOutcome × Nat × Nat :=
  reconnectLoop att 0 5

/-- What `Update` does right after the reconnect loop (line 555): it calls
`dfu.control.Subscribe`.  When the loop was left by exhaustion, `dfu.control`
is a nil interface, so the call is a nil-dereference runtime panic; no
`ReconnectFailed`-style error is ever produced on that path. -/
def updateAfterReconnect : ReconnectOutcome → Res (Option Err)
  | ReconnectOutcome.failed e => Res.ok (some e)
  | ReconnectOutcome.connected _ => Res.ok none
  | ReconnectOutcome.exhausted => Res.panic

/-- A device whose SELECT response reports `max_size = 2`, no progress, and
whose CRC_GET responses always report the correct offset but a CRC one above
the engine's expectation — a permanently CRC-mismatching device. -/
def mismatchDevice : Device where
  selectFrame := [0x60, 0x06, 0x01] ++ putU32le 2 ++ putU32le 0 ++ putU32le 0
  createFrame := fun _ => [0x60, 0x01, 0x01]
  crcFrame := fun k =>
    if k = 0 then [0x60, 0x03, 0x01] ++ putU32le 2 ++ putU32le (crc32 [7, 8] + 1)
    else [0x60, 0x03, 0x01] ++ putU32le 3 ++ putU32le (crc32 [7, 8, 9] + 1)
  executeFrame := fun _ => [0x60, 0x04, 0x01]
  packetErr := fun _ _ => none

/-- A device whose SELECT response for the payload `[9, 9]` reports
`offset = 2` and the full-payload CRC: the resume check matches. -/
def resumeDevice : Device where
  selectFrame := [0x60, 0x06, 0x01] ++ putU32le 4096 ++ putU32le 2 ++
    putU32le (crc32 [9, 9])
  createFrame := fun _ => [0x60, 0x01, 0x01]
  crcFrame := fun _ => [0x60, 0x03, 0x01]
  executeFrame := fun _ => [0x60, 0x04, 0x01]
  packetErr := fun _ _ => none

/-- A device whose SELECT response reports `max_size = 0` (e.g. the
zero-valued `SelectResponse` left behind by a failed `sendSelect`, whose
error `transfer` ignores) while answering every request with a well-formed
SUCCESS frame. -/
def zeroMaxSizeDevice : Device where
  selectFrame := [0x60, 0x06, 0x01] ++ putU32le 0 ++ putU32le 0 ++ putU32le 0
  createFrame := fun _ => [0x60, 0x01, 0x01]
  crcFrame := fun _ => [0x60, 0x03, 0x01] ++ putU32le 0 ++ putU32le (crc32 [])
  executeFrame := fun _ => [0x60, 0x04, 0x01]
  packetErr := fun _ _ => none

/-- A cooperating device for the payload `[1, 2]` of object type 1: large
`max_size`, no resume, correct CRC responses. -/
def okDevice1 : Device where
  selectFrame := [0x60, 0x06, 0x01] ++ putU32le 4096 ++ putU32le 0 ++ putU32le 0
  createFrame := fun _ => [0x60, 0x01, 0x01]
  crcFrame := fun _ => [0x60, 0x03, 0x01] ++ putU32le 2 ++ putU32le (crc32 [1, 2])
  executeFrame := fun _ => [0x60, 0x04, 0x01]
  packetErr := fun _ _ => none

/-- A cooperating device for the payload `[3]` of object type 2. -/
def okDevice2 : Device where
  selectFrame := [0x60, 0x06, 0x01] ++ putU32le 4096 ++ putU32le 0 ++ putU32le 0
  createFrame := fun _ => [0x60, 0x01, 0x01]
  crcFrame := fun _ => [0x60, 0x03, 0x01] ++ putU32le 1 ++ putU32le (crc32 [3])
  executeFrame := fun _ => [0x60, 0x04, 0x01]
  packetErr := fun _ _ => none

/-- Archive member named "a.dat" with two content bytes. -/
def dMem : ZMember := ⟨[97, 46, 100, 97, 116], 2, [1, 2]⟩

/-- Archive member named "b.bin" with one content byte. -/
def bMem : ZMember := ⟨[98, 46, 98, 105, 110], 1, [3]⟩

/-- Wrapping preserves nil-ness: the wrapped error is non-nil exactly when
the wrapped-up error was. -/
theorem wrapE_isSome (o : Option Err) (msg : String) :
    (wrapE o msg).isSome = o.isSome := by
  cases o <;> rfl

/-- The fragment budget of `sendDataGo` is irrelevant once it reaches the
payload length (every iteration consumes at least one byte). -/
theorem sendDataGo_fuel (we : Nat → Option Err) :
    ∀ (n m : Nat) (l : List Nat) (idx : Nat), l.length ≤ n → l.length ≤ m →
      sendDataGo we n l idx = sendDataGo we m l idx := by
  intro n
  induction n with
  | zero =>
    intro m l idx hn _
    have hl : l = [] := List.eq_nil_of_length_eq_zero (Nat.le_zero.mp hn)
    subst hl
    cases m <;> rfl
  | succ n ih =>
    intro m l idx hn hm
    cases l with
    | nil => cases m <;> rfl
    | cons d ds =>
      cases m with
      | zero => simp at hm
      | succ m =>
        simp only [sendDataGo]
        cases we idx with
        | some e => rfl
        | none =>
          have h1 : ((d :: ds).drop 20).length ≤ n := by
            simp only [List.length_drop, List.length_cons] at hn ⊢
            omega
          have h2 : ((d :: ds).drop 20).length ≤ m := by
            simp only [List.length_drop, List.length_cons] at hm ⊢
            omega
          rw [ih m ((d :: ds).drop 20) (idx + 1) h1 h2]

/-- Running `sendData` on the empty payload: the loop body never runs. -/
theorem sendData_nil (we : Nat → Option Err) (idx : Nat) :
    sendData we [] idx = ([], [], none) := rfl

/-- One unfolding of the `sendData` loop on a non-empty payload: attempt the
first (up to 20-byte) fragment write, then continue on the remainder. -/
theorem sendData_cons (we : Nat → Option Err) (d : Nat) (ds : List Nat)
    (idx : Nat) :
    sendData we (d :: ds) idx =
      match we idx with
      | some e =>
        ([], [], some (Err.wrap ("failed to write to packet characteristic") e))
      | none =>
        ((d :: ds).take 20 :: (sendData we ((d :: ds).drop 20) (idx + 1)).1,
         ((d :: ds).take 20).length ::
           (sendData we ((d :: ds).drop 20) (idx + 1)).2.1,
         (sendData we ((d :: ds).drop 20) (idx + 1)).2.2) := by
  show sendDataGo we (ds.length + 1) (d :: ds) idx = _
  simp only [sendDataGo]
  cases we idx with
  | some e => rfl
  | none =>
    rw [sendDataGo_fuel we ds.length ((d :: ds).drop 20).length
      ((d :: ds).drop 20) (idx + 1)
      (by simp only [List.length_drop, List.length_cons]; omega) le_rfl]
    rfl

/-- C2, settled against the code: on a response frame whose first byte is not
0x60/0x20, or whose opcode byte mismatches, or whose result byte is not
SUCCESS, `sendControl` and `sendBoot` return a nil error — each validation
branch passes the (nil) write error to `errors.Wrap`, which returns nil.  The
claimed non-nil `ControlProtocolError` / `ButtonlessProtocolError` is never
produced. -/
theorem protocol_violation_returns_nil_error :
    sendControl none [0x00, 0x06, 0x01] 0x06 [] = Res.ok (none, none)
    ∧ sendControl none [0x60, 0x05, 0x01] 0x06 [] = Res.ok (none, none)
    ∧ sendControl none [0x60, 0x06, 0x02] 0x06 [] = Res.ok (none, none)
    ∧ sendBoot none [0x00, 0x01, 0x01] [0x01] = Res.ok none
    ∧ sendBoot none [0x20, 0x02, 0x01] [0x01] = Res.ok none
    ∧ sendBoot none [0x20, 0x01, 0x02] [0x01] = Res.ok none := by
  decide

/-- C9: `sendControl` and `sendBoot` read frame bytes 0, 1, 2 without a
length check.  Any delivered frame of length at least 3 keeps the accesses in
bounds (no panic, given a non-empty request for `sendBoot`'s `request[0]`
read); any delivered frame shorter than 3 bytes is an index-out-of-range
runtime panic, not a returned error. -/
theorem response_frame_indexing (opcode : Nat) (request frame : List Nat) :
    (3 ≤ frame.length → request ≠ [] →
      sendControl none frame opcode request ≠ Res.panic
      ∧ sendBoot none frame request ≠ Res.panic)
    ∧ (frame.length < 3 →
      sendControl none frame opcode request = Res.panic
      ∧ sendBoot none frame request = Res.panic) := by
  constructor
  · intro h3 hreq
    match frame, h3 with
    | b0 :: b1 :: b2 :: rest, _ =>
      match request, hreq with
      | r0 :: rs, _ =>
        constructor
        · simp only [sendControl, Option.isSome_none, Bool.false_eq_true,
            if_false]
          split_ifs <;> simp
        · simp only [sendBoot, Option.isSome_none, Bool.false_eq_true,
            if_false]
          split_ifs <;> simp
  · intro hlt
    match frame, hlt with
    | [], _ => exact ⟨rfl, rfl⟩
    | [a], _ => exact ⟨rfl, rfl⟩
    | [a, b], _ => exact ⟨rfl, rfl⟩

/-- Witness for C9 at concrete inputs: the empty frame panics in both
helpers. -/
theorem response_frame_indexing_witness :
    sendControl none [] 0x06 [0x01] = Res.panic
    ∧ sendBoot none [] [0x01] = Res.panic :=
  (response_frame_indexing 0x06 [0x01] []).2 (by decide)

/-- C4: the checksum `verifyCrc` compares the CRC_GET response against is the
CRC-32/IEEE of the cumulative payload prefix up to the chunk end, not of the
chunk alone.  The concrete value on the bytes "123456789" pins the algorithm
parameters (reflected polynomial 0xEDB88320, init 0xFFFFFFFF, final xor
0xFFFFFFFF — check value 0xCBF43926), and the prefix checksum of `[1, 2]` up
to offset 2 differs from the checksum of the final one-byte chunk `[2]`. -/
theorem crc_expectation_is_cumulative_prefix :
    (∀ (p : List Nat) (k : Nat), verifyCrcChecksum p k = crc32 (p.take k))
    ∧ crc32 [49, 50, 51, 52, 53, 54, 55, 56, 57] = 0xCBF43926
    ∧ verifyCrcChecksum [1, 2] 2 ≠ crc32 [2] :=
  ⟨fun _ _ => rfl, by decide, by decide⟩

/-- C1, settled against the code: when a chunk's CRC_GET response reports a
wrong CRC (or a wrong offset), `verifyCrc` returns nil — both mismatch
branches wrap the nil error from `sendCrcGet` — so `transfer` issues
OBJECT_EXECUTE for that chunk, goes on to the next chunk, and returns nil
overall.  Here the device mismatches the CRC of every chunk of `[7, 8, 9]`
(max_size 2), yet the full two-chunk trace with both EXECUTEs is produced. -/
theorem crcMismatch_ignored_in_transfer :
    transfer mismatchDevice 1 [7, 8, 9] 5 =
      TResult.ok ([Op.select 1,
        Op.create 1 2, Op.packetWrite [7, 8], Op.crcGet, Op.execute,
        Op.create 1 1, Op.packetWrite [9], Op.crcGet, Op.execute], none)
    ∧ verifyCrc none ([0x60, 0x03, 0x01] ++ putU32le 2 ++
        putU32le (crc32 [7, 8] + 1)) [7, 8, 9] 2 = Res.ok none
    ∧ verifyCrc none ([0x60, 0x03, 0x01] ++ putU32le 5 ++
        putU32le (crc32 [7, 8])) [7, 8, 9] 2 = Res.ok none
    ∧ (crc32 [7, 8] + 1) % 2 ^ 32 ≠ crc32 [7, 8] := by
  decide

/-- C6, settled against the code: with every reconnect attempt yielding a
connection that lacks the control/packet characteristics, the loop makes
exactly 5 attempts with 4 sleeps and is then left by `break` with no error;
`Update` proceeds to `dfu.control.Subscribe` on a nil characteristic — a
runtime panic, not a `ReconnectFailed` error.  An attempt succeeds exactly
when both characteristics are present. -/
theorem reconnect_exhaustion_panics :
    updateReconnect (fun _ => ⟨none, false, false⟩) =
      (ReconnectOutcome.exhausted, 5, 4)
    ∧ updateAfterReconnect ReconnectOutcome.exhausted = Res.panic
    ∧ updateReconnect (fun _ => ⟨none, true, true⟩) =
      (ReconnectOutcome.connected 0, 1, 0)
    ∧ updateAfterReconnect (ReconnectOutcome.connected 0) = Res.ok none
    ∧ updateReconnect (fun k => if k < 2 then ⟨none, false, false⟩
        else ⟨none, true, true⟩) = (ReconnectOutcome.connected 2, 3, 2) := by
  decide

/-- Counterexample to C7 as stated: an archive that opens fine but contains
neither a `.dat` nor a `.bin` member makes `readFirmwareArchive` return a nil
error (no `ArchiveContentError` exists in the code); likewise an archive with
only a `.dat` member. -/
theorem missing_members_no_content_error :
    readFirmwareArchive none [] = ((none, none, 0), none)
    ∧ readFirmwareArchive none [dMem] = ((some dMem, none, 2), none) := by
  decide

/-- The last element of `a :: l` is the last element of `l` when `l` is
non-empty, and `a` otherwise. -/
theorem getLast?_cons_or {α : Type} (a : α) (l : List α) :
    (a :: l).getLast? = l.getLast?.or (some a) := by
  cases l with
  | nil => rfl
  | cons b bs =>
    rw [List.getLast?_cons_cons]
    rcases h : (b :: bs).getLast? with _ | x
    · simp at h
    · rfl

/-- Progress-total contribution of one archive member: its uncompressed size
counted once per matching suffix. -/
def memberContrib (f : ZMember) : Nat :=
  (if hasSuffix f.name datSuffix then f.usize else 0) +
  (if hasSuffix f.name binSuffix then f.usize else 0)

/-- First component of one archive-loop step: a `.dat` member overwrites the
selected init member. -/
theorem archiveStep_fst (acc : Option ZMember × Option ZMember × Nat)
    (f : ZMember) :
    (archiveStep acc f).1 =
      if hasSuffix f.name datSuffix then some f else acc.1 := by
  by_cases hb : hasSuffix f.name binSuffix = true <;>
    by_cases hd : hasSuffix f.name datSuffix = true <;>
      simp [archiveStep, hb, hd]

/-- Second component of one archive-loop step: a `.bin` member overwrites the
selected firmware member. -/
theorem archiveStep_snd (acc : Option ZMember × Option ZMember × Nat)
    (f : ZMember) :
    (archiveStep acc f).2.1 =
      if hasSuffix f.name binSuffix then some f else acc.2.1 := by
  by_cases hb : hasSuffix f.name binSuffix = true <;>
    by_cases hd : hasSuffix f.name datSuffix = true <;>
      simp [archiveStep, hb, hd]

/-- Progress-total component of one archive-loop step. -/
theorem archiveStep_total (acc : Option ZMember × Option ZMember × Nat)
    (f : ZMember) :
    (archiveStep acc f).2.2 = acc.2.2 + memberContrib f := by
  by_cases hb : hasSuffix f.name binSuffix = true <;>
    by_cases hd : hasSuffix f.name datSuffix = true <;>
      simp [archiveStep, memberContrib, hb, hd] <;> omega

/-- Full characterization of the archive member loop from an arbitrary
accumulator: each selection is the last matching member (falling back to the
accumulator's), and the total grows by every matching member's size. -/
theorem archiveFold_from (ms : List ZMember) :
    ∀ acc : Option ZMember × Option ZMember × Nat,
      (ms.foldl archiveStep acc).1 =
        ((ms.filter (fun f => hasSuffix f.name datSuffix)).getLast?).or acc.1
      ∧ (ms.foldl archiveStep acc).2.1 =
        ((ms.filter (fun f => hasSuffix f.name binSuffix)).getLast?).or acc.2.1
      ∧ (ms.foldl archiveStep acc).2.2 =
        acc.2.2 + (ms.map memberContrib).sum := by
  induction ms with
  | nil => intro acc; exact ⟨rfl, rfl, by simp⟩
  | cons m ms ih =>
    intro acc
    rw [List.foldl_cons]
    obtain ⟨ih1, ih2, ih3⟩ := ih (archiveStep acc m)
    refine ⟨?_, ?_, ?_⟩
    · rw [ih1, archiveStep_fst]
      by_cases hd : hasSuffix m.name datSuffix = true
      · rw [List.filter_cons_of_pos (by simpa using hd), getLast?_cons_or,
          Option.or_assoc, if_pos hd]
        rcases (ms.filter (fun f => hasSuffix f.name datSuffix)).getLast? with
          _ | x <;> rfl
      · rw [List.filter_cons_of_neg (by simpa using hd), if_neg hd]
    · rw [ih2, archiveStep_snd]
      by_cases hb : hasSuffix m.name binSuffix = true
      · rw [List.filter_cons_of_pos (by simpa using hb), getLast?_cons_or,
          Option.or_assoc, if_pos hb]
        rcases (ms.filter (fun f => hasSuffix f.name binSuffix)).getLast? with
          _ | x <;> rfl
      · rw [List.filter_cons_of_neg (by simpa using hb), if_neg hb]
    · rw [ih3, archiveStep_total]
      simp only [List.map_cons, List.sum_cons]
      omega

/-- C7 (amended): an open failure yields the wrapped non-nil "Cannot open
zip" error; a successfully opened archive always yields a nil error — even
when no `.dat` or `.bin` member exists, no content error is raised and the
corresponding selection stays empty (`none`); and the member selected for
each suffix is the last matching one in archive order. -/
theorem readFirmwareArchive_behavior (e : Err) (ms : List ZMember) :
    (readFirmwareArchive (some e) ms).2 = some (Err.wrap ("Cannot open zip") e)
    ∧ (readFirmwareArchive none ms).2 = none
    ∧ (readFirmwareArchive none ms).1.1 =
        (ms.filter (fun f => hasSuffix f.name datSuffix)).getLast?
    ∧ (readFirmwareArchive none ms).1.2.1 =
        (ms.filter (fun f => hasSuffix f.name binSuffix)).getLast?
    ∧ (readFirmwareArchive none ms).1.2.2 = (ms.map memberContrib).sum := by
  obtain ⟨h1, h2, h3⟩ := archiveFold_from ms (none, none, 0)
  refine ⟨rfl, rfl, ?_, ?_, ?_⟩
  · show (archiveFold ms).1 = _
    rw [archiveFold, h1, Option.or_none]
  · show (archiveFold ms).2.1 = _
    rw [archiveFold, h2, Option.or_none]
  · show (archiveFold ms).2.2 = _
    rw [archiveFold, h3]
    exact Nat.zero_add _

/-- Unfolding of `sendData` on a non-empty payload when the fragment write
succeeds. -/
theorem sendData_noErr_cons (d : Nat) (ds : List Nat) (idx : Nat) :
    sendData (fun _ => none) (d :: ds) idx =
      ((d :: ds).take 20 ::
         (sendData (fun _ => none) ((d :: ds).drop 20) (idx + 1)).1,
       ((d :: ds).take 20).length ::
         (sendData (fun _ => none) ((d :: ds).drop 20) (idx + 1)).2.1,
       (sendData (fun _ => none) ((d :: ds).drop 20) (idx + 1)).2.2) := by
  rw [sendData_cons]

/-- Auxiliary full specification of `sendData` when every fragment write
succeeds, by strong induction on the payload length: no error, the fragments
concatenate to the payload, every fragment is non-empty and at most 20
bytes, every fragment before the last is exactly 20 bytes, and the last
fragment's length is the payload length mod 20 (or 20 when the length
divides evenly). -/
theorem sendData_ok_spec :
    ∀ (n : Nat) (data : List Nat) (idx : Nat), data.length ≤ n →
      (sendData (fun _ => none) data idx).2.2 = none
      ∧ ((sendData (fun _ => none) data idx).1).flatten = data
      ∧ (∀ f ∈ (sendData (fun _ => none) data idx).1, f.length ≤ 20 ∧ f ≠ [])
      ∧ (∀ f ∈ ((sendData (fun _ => none) data idx).1).dropLast,
          f.length = 20)
      ∧ (data ≠ [] →
          ∃ l, ((sendData (fun _ => none) data idx).1).getLast? = some l
            ∧ l.length =
              (if data.length % 20 = 0 then 20 else data.length % 20)) := by
  intro n
  induction n with
  | zero =>
    intro data idx h
    have hd : data = [] := List.eq_nil_of_length_eq_zero (Nat.le_zero.mp h)
    subst hd
    exact ⟨rfl, rfl, by simp [sendData_nil], by simp [sendData_nil], by simp⟩
  | succ n ih =>
    intro data idx h
    match data with
    | [] =>
      exact ⟨rfl, rfl, by simp [sendData_nil], by simp [sendData_nil], by simp⟩
    | d :: ds =>
      obtain ⟨ih0, ih1, ih2, ih3, ih4⟩ :=
        ih ((d :: ds).drop 20) (idx + 1)
          (by simp only [List.length_drop, List.length_cons] at h ⊢; omega)
      refine ⟨?_, ?_, ?_, ?_, ?_⟩
      · rw [sendData_noErr_cons]
        exact ih0
      · rw [sendData_noErr_cons]
        show (d :: ds).take 20 ++
          ((sendData (fun _ => none) ((d :: ds).drop 20) (idx + 1)).1).flatten
          = d :: ds
        rw [ih1, List.take_append_drop]
      · rw [sendData_noErr_cons]
        intro f hf
        rcases List.mem_cons.mp hf with hft | hfr
        · subst hft
          constructor
          · rw [List.length_take]
            omega
          · rw [List.take_succ_cons]
            simp
        · exact ih2 f hfr
      · rw [sendData_noErr_cons]
        rcases hR : (sendData (fun _ => none) ((d :: ds).drop 20) (idx + 1)).1
          with _ | ⟨r, rs⟩
        · simp
        · have hlong : ¬(d :: ds).length ≤ 20 := by
            intro hle
            have hnil : (d :: ds).drop 20 = [] := List.drop_eq_nil_iff.mpr hle
            rw [hnil, sendData_nil] at hR
            simp at hR
          intro f hf
          have hf2 : f ∈ (d :: ds).take 20 :: (r :: rs).dropLast := hf
          rcases List.mem_cons.mp hf2 with hft | hfr
          · subst hft
            rw [List.length_take]
            omega
          · exact ih3 f (by rw [hR]; exact hfr)
      · intro _
        rw [sendData_noErr_cons]
        by_cases hle : (d :: ds).length ≤ 20
        · have hdrop : (d :: ds).drop 20 = [] := List.drop_eq_nil_iff.mpr hle
          rw [hdrop, sendData_nil]
          refine ⟨(d :: ds).take 20, by simp, ?_⟩
          rw [List.take_of_length_le hle]
          have h1 : 1 ≤ (d :: ds).length := by simp
          split <;> omega
        · have hdropne : (d :: ds).drop 20 ≠ [] := by
            rw [ne_eq, List.drop_eq_nil_iff]
            omega
          obtain ⟨l, hl, hlen⟩ := ih4 hdropne
          have hRne :
              (sendData (fun _ => none) ((d :: ds).drop 20) (idx + 1)).1 ≠ [] := by
            intro hc
            rw [hc] at hl
            simp at hl
          refine ⟨l, ?_, ?_⟩
          · show (List.take 20 (d :: ds) ::
              (sendData (fun _ => none) ((d :: ds).drop 20) (idx + 1)).1).getLast?
              = some l
            rcases hR :
              (sendData (fun _ => none) ((d :: ds).drop 20) (idx + 1)).1
              with _ | ⟨r, rs⟩
            · exact absurd hR hRne
            · rw [hR] at hl
              rw [List.getLast?_cons_cons]
              exact hl
          · have hdlen : ((d :: ds).drop 20).length = (d :: ds).length - 20 :=
              List.length_drop 20 (d :: ds)
            rw [hdlen] at hlen
            have h1 : 1 ≤ (d :: ds).length := by simp
            split at hlen <;> split <;> omega

/-- C5: the bytes streamed by `sendData` are partitioned in order into
fragments of at most 20 bytes, each written to the Packet characteristic
with no-response; their concatenation equals the payload exactly, every
fragment except possibly the last has length exactly 20, and when the
payload length is not divisible by 20 the final fragment has length
`payload_size % 20`. -/
theorem sendData_fragments_payload (data : List Nat) :
    ((sendData (fun _ => none) data 0).1).flatten = data
    ∧ (∀ f ∈ (sendData (fun _ => none) data 0).1, f.length ≤ 20)
    ∧ (∀ f ∈ ((sendData (fun _ => none) data 0).1).dropLast, f.length = 20)
    ∧ (data.length % 20 ≠ 0 →
        (((sendData (fun _ => none) data 0).1).getLastD []).length =
          data.length % 20) := by
  obtain ⟨-, hjoin, hmem, hlast20, hfin⟩ :=
    sendData_ok_spec data.length data 0 le_rfl
  refine ⟨hjoin, fun f hf => (hmem f hf).1, hlast20, fun hmod => ?_⟩
  have hne : data ≠ [] := by
    intro hnil
    rw [hnil] at hmod
    simp at hmod
  obtain ⟨l, hl, hlen⟩ := hfin hne
  rw [List.getLastD_eq_getLast?, hl]
  simp only [Option.getD_some]
  rw [hlen, if_neg hmod]

/-- Witness for C5 at a concrete input: a 21-byte payload yields fragments
concatenating to it, with a final fragment of length 21 % 20 = 1. -/
theorem sendData_fragments_payload_witness :
    (List.replicate 21 0).length % 20 ≠ 0
    ∧ (((sendData (fun _ => none) (List.replicate 21 0) 0).1).getLastD
        []).length = (List.replicate 21 0).length % 20 :=
  ⟨by decide,
   (sendData_fragments_payload (List.replicate 21 0)).2.2.2 (by decide)⟩

/-- When `sendData` reports no error, every fragment write succeeded and the
fragments concatenate to the whole payload — for an arbitrary per-fragment
write outcome function. -/
theorem sendData_err_none_flatten (we : Nat → Option Err) :
    ∀ (n : Nat) (l : List Nat) (idx : Nat), l.length ≤ n →
      (sendData we l idx).2.2 = none →
      ((sendData we l idx).1).flatten = l := by
  intro n
  induction n with
  | zero =>
    intro l idx h _
    have hl : l = [] := List.eq_nil_of_length_eq_zero (Nat.le_zero.mp h)
    subst hl
    rfl
  | succ n ih =>
    intro l idx h herr
    match l with
    | [] => rfl
    | d :: ds =>
      rw [sendData_cons] at herr ⊢
      rcases hwe : we idx with _ | e
      · rw [hwe] at herr
        have hrec := ih ((d :: ds).drop 20) (idx + 1)
          (by simp only [List.length_drop, List.length_cons] at h ⊢; omega)
          herr
        show (d :: ds).take 20 ++
          ((sendData we ((d :: ds).drop 20) (idx + 1)).1).flatten = d :: ds
        rw [hrec, List.take_append_drop]
      · rw [hwe] at herr
        exact Option.noConfusion herr

/-- The progress reported over a full chunk trace is the sum of its fragment
lengths: the CREATE, CRC_GET and EXECUTE actions report none. -/
theorem progressOf_chunk (t cs : Nat) (fs : List (List Nat)) :
    progressOf (Op.create t cs :: fs.map Op.packetWrite ++
      [Op.crcGet, Op.execute]) = (fs.map List.length).sum := by
  have hcomp : opProgress ∘ Op.packetWrite = List.length := by
    funext f
    rfl
  simp [progressOf, opProgress, List.map_map, hcomp]

/-- Progress is additive over trace concatenation. -/
theorem progressOf_append (tr1 tr2 : List Op) :
    progressOf (tr1 ++ tr2) = progressOf tr1 + progressOf tr2 := by
  simp [progressOf]

/-- An early-return from a chunk iteration always carries a non-nil error:
each of the four `return` paths wraps an error that was just observed to be
non-nil. -/
theorem chunkStep_inl_isSome (dev : Device) (t : Nat) (data : List Nat)
    (mcs i k : Nat) (tr : List Op) (err : Option Err)
    (h : chunkStep dev t data mcs i k = Res.ok (Sum.inl (tr, err))) :
    err.isSome = true := by
  simp only [chunkStep] at h
  set eV := if i + mcs > data.length then data.length else i + mcs with he
  rcases hc : sendCreateObject none (dev.createFrame k) t (eV - i) with _ | cErr
  · simp only [hc] at h
    exact Res.noConfusion h
  · simp only [hc] at h
    by_cases h1 : cErr.isSome = true
    · simp only [if_pos h1, Res.ok.injEq, Sum.inl.injEq, Prod.mk.injEq] at h
      obtain ⟨-, h2⟩ := h
      subst h2
      rw [wrapE_isSome]
      exact h1
    · simp only [if_neg h1] at h
      by_cases h2 : (sendData (dev.packetErr k)
          ((data.drop i).take (eV - i)) 0).2.2.isSome = true
      · simp only [if_pos h2, Res.ok.injEq, Sum.inl.injEq, Prod.mk.injEq] at h
        obtain ⟨-, h3⟩ := h
        subst h3
        rw [wrapE_isSome]
        exact h2
      · simp only [if_neg h2] at h
        rcases hv : verifyCrc none (dev.crcFrame k) data eV with _ | vErr
        · simp only [hv] at h
          exact Res.noConfusion h
        · simp only [hv] at h
          by_cases h3 : vErr.isSome = true
          · simp only [if_pos h3, Res.ok.injEq, Sum.inl.injEq,
              Prod.mk.injEq] at h
            obtain ⟨-, h4⟩ := h
            subst h4
            rw [wrapE_isSome]
            exact h3
          · simp only [if_neg h3] at h
            rcases hx : sendExecute none (dev.executeFrame k) with _ | xErr
            · simp only [hx] at h
              exact Res.noConfusion h
            · simp only [hx] at h
              by_cases h4 : xErr.isSome = true
              · simp only [if_pos h4, Res.ok.injEq, Sum.inl.injEq,
                  Prod.mk.injEq] at h
                obtain ⟨-, h5⟩ := h
                subst h5
                rw [wrapE_isSome]
                exact h4
              · simp only [if_neg h4] at h
                simp at h

/-- A completed chunk iteration reports exactly the chunk's bytes as
progress: the fragment lengths of the streamed slice sum to
`chunk_end - i`. -/
theorem chunkStep_inr_progress (dev : Device) (t : Nat) (data : List Nat)
    (mcs i k : Nat) (tr3 : List Op)
    (h : chunkStep dev t data mcs i k = Res.ok (Sum.inr tr3)) :
    progressOf tr3 =
      (if i + mcs > data.length then data.length else i + mcs) - i := by
  simp only [chunkStep] at h
  set eV := if i + mcs > data.length then data.length else i + mcs with he
  rcases hc : sendCreateObject none (dev.createFrame k) t (eV - i) with _ | cErr
  · simp only [hc] at h
    exact Res.noConfusion h
  · simp only [hc] at h
    by_cases h1 : cErr.isSome = true
    · simp only [if_pos h1] at h
      simp at h
    · simp only [if_neg h1] at h
      by_cases h2 : (sendData (dev.packetErr k)
          ((data.drop i).take (eV - i)) 0).2.2.isSome = true
      · simp only [if_pos h2] at h
        simp at h
      · simp only [if_neg h2] at h
        rcases hv : verifyCrc none (dev.crcFrame k) data eV with _ | vErr
        · simp only [hv] at h
          exact Res.noConfusion h
        · simp only [hv] at h
          by_cases h3 : vErr.isSome = true
          · simp only [if_pos h3] at h
            simp at h
          · simp only [if_neg h3] at h
            rcases hx : sendExecute none (dev.executeFrame k) with _ | xErr
            · simp only [hx] at h
              exact Res.noConfusion h
            · simp only [hx] at h
              by_cases h4 : xErr.isSome = true
              · simp only [if_pos h4] at h
                simp at h
              · simp only [if_neg h4, Res.ok.injEq, Sum.inr.injEq] at h
                subst h
                rw [progressOf_chunk]
                have herr : (sendData (dev.packetErr k)
                    ((data.drop i).take (eV - i)) 0).2.2 = none :=
                  Option.not_isSome_iff_eq_none.mp h2
                have hflat := sendData_err_none_flatten (dev.packetErr k)
                  ((data.drop i).take (eV - i)).length
                  ((data.drop i).take (eV - i)) 0 le_rfl herr
                rw [← List.length_flatten, hflat, List.length_take,
                  List.length_drop, he]
                by_cases hcase : i + mcs > data.length <;>
                  simp only [hcase, if_pos, if_neg, gt_iff_lt, ite_true,
                    ite_false, if_true, if_false] <;> omega

/-- A run of the chunk loop that ends with a nil error streamed every byte
from its start position to the end of the payload: the reported progress is
`data.length - i`. -/
theorem transferLoop_ok_none_progress (dev : Device) (t : Nat)
    (data : List Nat) (mcs : Nat) :
    ∀ (fuel i k : Nat) (tr : List Op),
      transferLoop dev t data mcs i k fuel = TResult.ok (tr, none) →
      progressOf tr = data.length - i := by
  intro fuel
  induction fuel with
  | zero =>
    intro i k tr h
    exact TResult.noConfusion h
  | succ f ih =>
    intro i k tr h
    rw [transferLoop] at h
    by_cases hi : i < data.length
    · rw [if_pos hi] at h
      rcases hc : chunkStep dev t data mcs i k with _ | val
      · simp only [hc] at h
        exact TResult.noConfusion h
      · simp only [hc] at h
        rcases val with r | tr3
        · rcases r with ⟨tr', err'⟩
          simp only [TResult.ok.injEq, Prod.mk.injEq] at h
          obtain ⟨-, h2⟩ := h
          have hs := chunkStep_inl_isSome dev t data mcs i k tr' err' hc
          rw [h2] at hs
          simp at hs
        · rcases hrec : transferLoop dev t data mcs (i + mcs) (k + 1) f
            with _ | _ | p
          · simp only [hrec] at h
            exact TResult.noConfusion h
          · simp only [hrec] at h
            exact TResult.noConfusion h
          · rcases p with ⟨tr', e'⟩
            simp only [hrec, TResult.ok.injEq, Prod.mk.injEq] at h
            obtain ⟨h1, h2⟩ := h
            subst h2
            subst h1
            have hp := ih (i + mcs) (k + 1) tr' hrec
            have h3 := chunkStep_inr_progress dev t data mcs i k tr3 hc
            rw [progressOf_append, h3, hp]
            split <;> omega
    · rw [if_neg hi] at h
      simp only [TResult.ok.injEq, Prod.mk.injEq] at h
      obtain ⟨h1, -⟩ := h
      subst h1
      simp only [progressOf, List.map_nil, List.sum_nil]
      omega

/-- When the SELECT-reported max chunk size is positive, a fuel budget of
`data.length + 1` iterations is enough for the chunk loop: it never runs out
of fuel. -/
theorem transferLoop_enough_fuel (dev : Device) (t : Nat) (data : List Nat)
    (mcs : Nat) (hmcs : 0 < mcs) :
    ∀ (fuel i k : Nat), data.length - i < fuel →
      transferLoop dev t data mcs i k fuel ≠ TResult.fuelOut := by
  intro fuel
  induction fuel with
  | zero =>
    intro i k h
    exact absurd h (by omega)
  | succ f ih =>
    intro i k h hcontra
    rw [transferLoop] at hcontra
    by_cases hi : i < data.length
    · rw [if_pos hi] at hcontra
      rcases hc : chunkStep dev t data mcs i k with _ | val
      · simp only [hc] at hcontra
        exact TResult.noConfusion hcontra
      · simp only [hc] at hcontra
        rcases val with r | tr3
        · exact TResult.noConfusion hcontra
        · rcases hrec : transferLoop dev t data mcs (i + mcs) (k + 1) f
            with _ | _ | p
          · exact ih (i + mcs) (k + 1) (by omega) hrec
          · simp only [hrec] at hcontra
            exact TResult.noConfusion hcontra
          · rcases p with ⟨tr', e'⟩
            simp only [hrec] at hcontra
            exact TResult.noConfusion hcontra
    · rw [if_neg hi] at hcontra
      exact TResult.noConfusion hcontra

/-- When SELECT reports `max_size = 0` for a non-empty payload and the device
keeps answering every request with a well-formed SUCCESS frame, the chunk
loop's index never advances (`i + 0 = i`): every iteration re-creates a
zero-length object, streams nothing, passes the (unenforced) CRC check and
executes, so no fuel budget is ever enough — the Go loop never terminates. -/
theorem transferLoop_zero_mcs (dev : Device) (t : Nat) (data : List Nat)
    (hdata : data ≠ [])
    (hcr : ∀ k, sendCreateObject none (dev.createFrame k) t 0 = Res.ok none)
    (hvf : ∀ k, verifyCrc none (dev.crcFrame k) data 0 = Res.ok none)
    (hex : ∀ k, sendExecute none (dev.executeFrame k) = Res.ok none) :
    ∀ fuel k, transferLoop dev t data 0 0 k fuel = TResult.fuelOut := by
  have hi : 0 < data.length := List.length_pos.mpr hdata
  have hstep : ∀ k, chunkStep dev t data 0 0 k =
      Res.ok (Sum.inr [Op.create t 0, Op.crcGet, Op.execute]) := by
    intro k
    simp [chunkStep, hcr k, hvf k, hex k, sendData_nil, Nat.not_lt_of_le hi]
  intro fuel
  induction fuel with
  | zero => intro k; rfl
  | succ f ih =>
    intro k
    rw [transferLoop, if_pos hi]
    simp [hstep k, ih (k + 1)]

/-- A `transfer` that returned a nil error without hitting the resume check
streamed the whole payload: its trace reports exactly `data.length` bytes of
progress. -/
theorem transfer_ok_none_progress (dev : Device) (t : Nat) (data : List Nat)
    (fuel : Nat) (sel : SelectResponse) (e : Option Err) (tr : List Op)
    (hsel : sendSelect none dev.selectFrame t = Res.ok (sel, e))
    (hnr : ¬(sel.Offset = data.length % 2 ^ 32 ∧ sel.Crc32 = crc32 data))
    (h : transfer dev t data fuel = TResult.ok (tr, none)) :
    progressOf tr = data.length := by
  unfold transfer at h
  simp only [hsel, if_neg hnr] at h
  rcases hloop : transferLoop dev t data sel.MaxSize 0 0 fuel with _ | _ | p
  · simp only [hloop] at h
    exact TResult.noConfusion h
  · simp only [hloop] at h
    exact TResult.noConfusion h
  · rcases p with ⟨tr', e'⟩
    simp only [hloop, TResult.ok.injEq, Prod.mk.injEq] at h
    obtain ⟨h1, h2⟩ := h
    subst h2
    subst h1
    have hp := transferLoop_ok_none_progress dev t data sel.MaxSize fuel 0 0
      tr' hloop
    have hsel0 : progressOf (Op.select t :: tr') = progressOf tr' := by
      simp [progressOf, opProgress]
    rw [hsel0, hp, Nat.sub_zero]

/-- C3: when the OBJECT_SELECT response reports an offset equal to the
payload length and a CRC equal to the CRC-32/IEEE of the whole payload, the
resume check fires and `transfer` returns success at once: the trace holds
only the SELECT — zero Packet-characteristic writes and no CREATE, CRC_GET
or EXECUTE for that payload. -/
theorem resume_skips_all_writes (dev : Device) (objectType : Nat)
    (data : List Nat) (fuel : Nat) (sel : SelectResponse)
    (hsel : sendSelect none dev.selectFrame objectType = Res.ok (sel, none))
    (hoff : sel.Offset = data.length % 2 ^ 32)
    (hcrc : sel.Crc32 = crc32 data) :
    transfer dev objectType data fuel = TResult.ok ([Op.select objectType], none) := by
  unfold transfer
  simp only [hsel, if_pos (And.intro hoff hcrc)]

/-- Witness for C3 at a concrete input: a device reporting
`(offset, crc) = (2, crc32 [9, 9])` for the payload `[9, 9]` makes `transfer`
return immediately with only the SELECT in its trace, even with zero fuel. -/
theorem resume_skips_all_writes_witness :
    transfer resumeDevice 1 [9, 9] 0 = TResult.ok ([Op.select 1], none) :=
  resume_skips_all_writes resumeDevice 1 [9, 9] 0 ⟨4096, 2, crc32 [9, 9]⟩
    (by decide) (by decide) rfl

/-- C10: termination of the chunked upload loop.  If the SELECT-reported
`max_size` is positive, or the payload is empty, or the resume check
matches, `transfer` finishes within `data.length + 1` loop iterations.  If
SELECT reports `max_size = 0` for a non-empty payload that fails the resume
check — e.g. the zero-valued response left by a failed `sendSelect`, whose
error `transfer` never looks at — and the device keeps answering with
well-formed SUCCESS frames, the loop index never advances and no iteration
budget whatsoever lets `transfer` terminate. -/
theorem transfer_termination (dev : Device) (objectType : Nat)
    (data : List Nat) (sel : SelectResponse) (e : Option Err)
    (hsel : sendSelect none dev.selectFrame objectType = Res.ok (sel, e)) :
    ((0 < sel.MaxSize ∨ data = [] ∨
        (sel.Offset = data.length % 2 ^ 32 ∧ sel.Crc32 = crc32 data)) →
      transfer dev objectType data (data.length + 1) ≠ TResult.fuelOut)
    ∧ (sel.MaxSize = 0 → data ≠ [] →
        ¬(sel.Offset = data.length % 2 ^ 32 ∧ sel.Crc32 = crc32 data) →
        (∀ k, sendCreateObject none (dev.createFrame k) objectType 0 =
          Res.ok none) →
        (∀ k, verifyCrc none (dev.crcFrame k) data 0 = Res.ok none) →
        (∀ k, sendExecute none (dev.executeFrame k) = Res.ok none) →
        ∀ fuel, transfer dev objectType data fuel = TResult.fuelOut) := by
  constructor
  · intro hcase
    unfold transfer
    simp only [hsel]
    by_cases hres : sel.Offset = data.length % 2 ^ 32 ∧ sel.Crc32 = crc32 data
    · rw [if_pos hres]
      simp
    · rw [if_neg hres]
      rcases hcase with hm | hd | hr
      · rcases hloop : transferLoop dev objectType data sel.MaxSize 0 0
            (data.length + 1) with _ | _ | p
        · exact absurd hloop (transferLoop_enough_fuel dev objectType data
            sel.MaxSize hm (data.length + 1) 0 0 (by omega))
        · simp [hloop]
        · rcases p with ⟨tr', e'⟩
          simp [hloop]
      · subst hd
        have hone : transferLoop dev objectType ([] : List Nat) sel.MaxSize 0 0 1
            = TResult.ok ([], none) := by
          rw [transferLoop]
          simp
        simp [hone]
      · exact absurd hr hres
  · intro hm hd hr hcr hvf hex fuel
    unfold transfer
    simp only [hsel]
    rw [if_neg hr, hm,
      transferLoop_zero_mcs dev objectType data hd hcr hvf hex fuel 0]

/-- Witness for C10 at concrete inputs: a device reporting `max_size = 0` for
the one-byte payload `[5]` (resume check failing) never lets `transfer`
finish — shown at fuel 3 — while the empty payload finishes on its
`length + 1 = 1` budget. -/
theorem transfer_termination_witness :
    transfer zeroMaxSizeDevice 1 [5] 3 = TResult.fuelOut
    ∧ transfer zeroMaxSizeDevice 1 [] 1 ≠ TResult.fuelOut := by
  constructor
  · exact (transfer_termination zeroMaxSizeDevice 1 [5] ⟨0, 0, 0⟩ none
      (by decide)).2 rfl (by decide) (by decide)
      (fun _ => (by decide :
        sendCreateObject none [0x60, 0x01, 0x01] 1 0 = Res.ok none))
      (fun _ => (by decide : verifyCrc none
        ([0x60, 0x03, 0x01] ++ putU32le 0 ++ putU32le (crc32 [])) [5] 0 =
        Res.ok none))
      (fun _ => (by decide :
        sendExecute none [0x60, 0x04, 0x01] = Res.ok none)) 3
  · exact (transfer_termination zeroMaxSizeDevice 1 [] ⟨0, 0, 0⟩ none
      (by decide)).1 (Or.inr (Or.inl rfl))

/-- Every increment ever passed to `updateProgress` is a fragment length,
hence non-negative. -/
theorem incrementsOf_nonneg (tr : List Op) :
    ∀ x ∈ incrementsOf tr, 0 ≤ x := by
  intro x hx
  obtain ⟨op, -, hop⟩ := List.mem_filterMap.mp hx
  cases op with
  | packetWrite f =>
    simp only [Option.some.injEq] at hop
    subst hop
    exact Int.natCast_nonneg f.length
  | select t => exact Option.noConfusion hop
  | create t n => exact Option.noConfusion hop
  | crcGet => exact Option.noConfusion hop
  | execute => exact Option.noConfusion hop

/-- Running `updateProgress` over any sequence of non-negative increments
yields a non-decreasing sequence of progress values, from any start. -/
theorem chain_le_scanl (l : List Int) (h : ∀ x ∈ l, 0 ≤ x) :
    ∀ s : Int, List.Chain' (fun a c => a ≤ c) (l.scanl updateProgress s) := by
  induction l with
  | nil =>
    intro s
    exact List.chain'_singleton s
  | cons x xs ih =>
    intro s
    rw [List.scanl_cons, List.singleton_append, List.chain'_cons']
    constructor
    · intro b hb
      have hhead : (xs.scanl updateProgress (updateProgress s x)).head? =
          some (updateProgress s x) := by
        cases xs <;> rfl
      rw [hhead] at hb
      simp only [Option.mem_def, Option.some.injEq] at hb
      subst hb
      show s ≤ s + x
      have hx := h x (by simp)
      omega
    · exact ih (fun y hy => h y (by simp [hy])) (updateProgress s x)

/-- Summing a suffix-gated size over all members equals summing the size
over the matching members. -/
theorem sum_map_ite (p : ZMember → Bool) (ms : List ZMember) :
    (ms.map (fun f => if p f then f.usize else 0)).sum =
      ((ms.filter p).map ZMember.usize).sum := by
  induction ms with
  | nil => rfl
  | cons m ms ih =>
    by_cases h : p m = true
    · rw [List.map_cons, List.sum_cons, List.filter_cons_of_pos h,
        List.map_cons, List.sum_cons, if_pos h, ih]
    · rw [List.map_cons, List.sum_cons, List.filter_cons_of_neg h, if_neg h,
        ih]
      omega

/-- The archive total splits into the `.dat` contributions plus the `.bin`
contributions. -/
theorem sum_map_add_split (ms : List ZMember) :
    (ms.map memberContrib).sum =
      (ms.map (fun f => if hasSuffix f.name datSuffix then f.usize else 0)).sum
      + (ms.map (fun f =>
          if hasSuffix f.name binSuffix then f.usize else 0)).sum := by
  induction ms with
  | nil => rfl
  | cons m ms ih =>
    simp only [List.map_cons, List.sum_cons, memberContrib, ih]
    omega

/-- C8: throughout an `Update` in which the archive selects exactly one
`.dat` member `d` and one `.bin` member `b` (whose recorded uncompressed
sizes match their contents) and both payloads are fully streamed (no resume
skip, nil error), the progress value never decreases — every
`updateProgress` increment is non-negative and the running progress values
form a non-decreasing chain — and the final progress equals the precomputed
total, the sum of the two members' uncompressed sizes. -/
theorem progress_monotone_and_total
    (ms : List ZMember) (d b : ZMember) (dev1 dev2 : Device) (f1 f2 : Nat)
    (sel1 sel2 : SelectResponse) (e1 e2 : Option Err) (tr1 tr2 : List Op)
    (hmd : ms.filter (fun f => hasSuffix f.name datSuffix) = [d])
    (hmb : ms.filter (fun f => hasSuffix f.name binSuffix) = [b])
    (hsd : d.usize = d.data.length)
    (hsb : b.usize = b.data.length)
    (hs1 : sendSelect none dev1.selectFrame 1 = Res.ok (sel1, e1))
    (hn1 : ¬(sel1.Offset = d.data.length % 2 ^ 32 ∧ sel1.Crc32 = crc32 d.data))
    (ht1 : transfer dev1 1 d.data f1 = TResult.ok (tr1, none))
    (hs2 : sendSelect none dev2.selectFrame 2 = Res.ok (sel2, e2))
    (hn2 : ¬(sel2.Offset = b.data.length % 2 ^ 32 ∧ sel2.Crc32 = crc32 b.data))
    (ht2 : transfer dev2 2 b.data f2 = TResult.ok (tr2, none)) :
    (∀ x ∈ incrementsOf (tr1 ++ tr2), 0 ≤ x)
    ∧ List.Chain' (fun a c => a ≤ c) (progressStates (tr1 ++ tr2))
    ∧ (readFirmwareArchive none ms).1.1 = some d
    ∧ (readFirmwareArchive none ms).1.2.1 = some b
    ∧ (readFirmwareArchive none ms).1.2.2 = progressOf tr1 + progressOf tr2 := by
  obtain ⟨a1, a2, a3⟩ := archiveFold_from ms (none, none, 0)
  have hp1 := transfer_ok_none_progress dev1 1 d.data f1 sel1 e1 tr1 hs1 hn1 ht1
  have hp2 := transfer_ok_none_progress dev2 2 b.data f2 sel2 e2 tr2 hs2 hn2 ht2
  refine ⟨incrementsOf_nonneg (tr1 ++ tr2), ?_, ?_, ?_, ?_⟩
  · exact chain_le_scanl (incrementsOf (tr1 ++ tr2))
      (incrementsOf_nonneg (tr1 ++ tr2)) 0
  · show (archiveFold ms).1 = some d
    rw [archiveFold, a1, hmd]
    rfl
  · show (archiveFold ms).2.1 = some b
    rw [archiveFold, a2, hmb]
    rfl
  · show (archiveFold ms).2.2 = progressOf tr1 + progressOf tr2
    rw [archiveFold, a3, sum_map_add_split, sum_map_ite, sum_map_ite, hmd, hmb]
    simp only [List.map_cons, List.map_nil, List.sum_cons, List.sum_nil]
    rw [hp1, hp2, hsd, hsb]
    omega

/-- Witness for C8 at concrete inputs: the archive `[a.dat ↦ [1, 2],
b.bin ↦ [3]]` against cooperating devices yields a non-decreasing progress
chain and a final progress of 3 = 2 + 1, the precomputed total. -/
theorem progress_monotone_and_total_witness :
    List.Chain' (fun a c => a ≤ c) (progressStates
      ([Op.select 1, Op.create 1 2, Op.packetWrite [1, 2], Op.crcGet,
        Op.execute] ++
       [Op.select 2, Op.create 2 1, Op.packetWrite [3], Op.crcGet,
        Op.execute]))
    ∧ (readFirmwareArchive none [dMem, bMem]).1.1 = some dMem
    ∧ (readFirmwareArchive none [dMem, bMem]).1.2.1 = some bMem
    ∧ (readFirmwareArchive none [dMem, bMem]).1.2.2 =
        progressOf [Op.select 1, Op.create 1 2, Op.packetWrite [1, 2],
          Op.crcGet, Op.execute] +
        progressOf [Op.select 2, Op.create 2 1, Op.packetWrite [3],
          Op.crcGet, Op.execute] := by
  have h := progress_monotone_and_total [dMem, bMem] dMem bMem
    okDevice1 okDevice2 2 2 ⟨4096, 0, 0⟩ ⟨4096, 0, 0⟩ none none
    [Op.select 1, Op.create 1 2, Op.packetWrite [1, 2], Op.crcGet, Op.execute]
    [Op.select 2, Op.create 2 1, Op.packetWrite [3], Op.crcGet, Op.execute]
    (by decide) (by decide) (by decide) (by decide)
    (by decide) (by decide) (by decide)
    (by decide) (by decide) (by decide)
  exact ⟨h.2.1, h.2.2.1, h.2.2.2.1, h.2.2.2.2⟩

/-- Witness for C4 at a concrete input: the checksum `verifyCrc` compares
against for the payload `[1, 2]` at chunk end 2 is the prefix CRC. -/
theorem crc_expectation_is_cumulative_prefix_witness :
    verifyCrcChecksum [1, 2] 2 = crc32 ([1, 2].take 2) :=
  crc_expectation_is_cumulative_prefix.1 [1, 2] 2

/-- Witness for the amended C7 at concrete inputs: a failed archive open is
reported as the wrapped non-nil "Cannot open zip" error. -/
theorem readFirmwareArchive_behavior_witness :
    (readFirmwareArchive (some (Err.base ("io"))) [dMem]).2 =
      some (Err.wrap ("Cannot open zip") (Err.base ("io"))) :=
  (readFirmwareArchive_behavior (Err.base ("io")) [dMem]).1

end NrfDfu
